import Mathlib

/-!
Shallow embedding of the panopticon-tui dashboard state engine (src/app.rs).

Conventions:
* `VecDeque<T>` is a `List T` with `push_back = · ++ [c]` and `pop_front = List.tail`.
* `usize`/`u64` values are `Nat`; the one place the code casts to `u16`
  (`prepare_dump`) truncates with `% 2 ^ 16`.
* A Rust panic (index out of bounds, `% 0`, checked `usize` underflow) is
  modelled by returning `none`; fallible operations return `Option`.
* The tree rendering function `widgets::tree::tree_list_widget` is used by
  `app.rs` but its source file is not under `src/`; it is modelled from the
  spec (section 4.3 ForestRenderer), see `treeListWidget` below.
-/

namespace Panopticon

/-- Fiber status, from zio::model (shape given by the spec and by the use
sites in app.rs). -/
inductive FiberStatus
  | Done
  | Finishing
  | Running
  | Suspended
deriving DecidableEq

/-- Rendering of a status as it appears in the rendered fiber labels. -/
def FiberStatus.render : FiberStatus → String
  | .Done => "Done"
  | .Finishing => "Finishing"
  | .Running => "Running"
  | .Suspended => "Suspended"

/-- Fiber snapshot node: id, optional parent id, status, multi-line dump. -/
structure Fiber where
  id : Nat
  parent_id : Option Nat
  status : FiberStatus
  dump : String
deriving DecidableEq

/-- Actor snapshot node: id, optional parent id, display name. -/
structure ActorTreeNode where
  id : Nat
  parent_id : Option Nat
  name : String
deriving DecidableEq

/-- Per-snapshot tally of fiber statuses (zio::model::FiberCount). -/
structure FiberCount where
  done : Nat
  suspended : Nat
  running : Nat
  finishing : Nat
deriving DecidableEq

/-- Slick static configuration record (jmx::model::SlickConfig). -/
structure SlickConfig where
  max_threads : Nat
  max_queue_size : Nat
deriving DecidableEq

/-- jmx::model::SlickMetrics: the field list is not under src/; only the
identity of a sample matters to the state engine, so it is modelled as an
opaque record. -/
structure SlickMetrics where
  mk ::
deriving DecidableEq

/-- jmx::model::HikariMetrics: same situation as `SlickMetrics`. -/
structure HikariMetrics where
  mk ::
deriving DecidableEq

/-- jmx::model::JMXConnectionSettings: only its presence is inspected by
`App::new`. -/
structure JMXConnectionSettings where
  mk ::
deriving DecidableEq

/-- akka::model::AkkaSettings: only its presence is inspected by `App::new`. -/
structure AkkaSettings where
  mk ::
deriving DecidableEq

/-- tui::widgets::ListState (external crate): the dashboard only uses
`selected()` and `select(..)`, so the model is just the optional index. -/
structure ListState where
  selected : Option Nat
deriving DecidableEq

/-- StatefulList from app.rs. -/
structure StatefulList (α : Type) where
  state : ListState
  items : List α
deriving DecidableEq

/-- StatefulList::with_items: no selection. -/
def StatefulList.with_items (items : List α) : StatefulList α :=
  ⟨⟨none⟩, items⟩

/-- StatefulList::next. With a present selection the code evaluates
`self.items.len() - 1`; on an empty list that usize subtraction underflows
(a panic in checked builds), modelled as `none`. With no selection the code
unconditionally selects index 0, even when the list is empty. -/
def StatefulList.next (s : StatefulList α) : Option (StatefulList α) :=
  match s.state.selected with
  | some i =>
    if s.items.length = 0 then none
    else some { s with state := ⟨some (if s.items.length - 1 ≤ i then 0 else i + 1)⟩ }
  | none => some { s with state := ⟨some 0⟩ }

/-- StatefulList::previous. When the selection is 0 the code evaluates
`self.items.len() - 1`; on an empty list that underflows (panic in checked
builds), modelled as `none`. With no selection it selects index 0. -/
def StatefulList.previous (s : StatefulList α) : Option (StatefulList α) :=
  match s.state.selected with
  | some i =>
    if i = 0 then
      if s.items.length = 0 then none
      else some { s with state := ⟨some (s.items.length - 1)⟩ }
    else some { s with state := ⟨some (i - 1)⟩ }
  | none => some { s with state := ⟨some 0⟩ }

/-- The shared shape of the four bounded-history appends in app.rs
(`append_fiber_count`, `append_slick_metrics`, `append_hikari_metrics`,
`append_actor_count`): `if len() > MAX { pop_front() } push_back(c)`. -/
def boundedAppend (maxLen : Nat) (q : List α) (c : α) : List α :=
  (if maxLen < q.length then q.tail else q) ++ [c]

/-- Folding a whole sequence of appends from the empty buffer; used to state
the claim about arbitrary append sequences. -/
def histAfter (maxLen : Nat) (xs : List α) : List α :=
  xs.foldl (boundedAppend maxLen) []

/-- Concatenation of a list of lists (kept local so every definition reduces
by kernel evaluation). -/
def listFlat : List (List α) → List α
  | [] => []
  | l :: ls => l ++ listFlat ls

/-- Pairs every element with its position, starting at the given index. -/
def enumWith : Nat → List α → List (Nat × α)
  | _, [] => []
  | i, x :: xs => (i, x) :: enumWith (i + 1) xs

/-- Insertion into a list kept ascending by the given key. -/
def insertByKey (key : α → Nat) (x : α) : List α → List α
  | [] => [x]
  | y :: ys => if key x ≤ key y then x :: y :: ys else y :: insertByKey key x ys

/-- Sorts a list ascending by the given key. -/
def sortByKey (key : α → Nat) (l : List α) : List α :=
  l.foldr (insertByKey key) []

/-- Modelled from the spec: the depth-first pre-order traversal of section
4.3 (ForestRenderer, steps 3 and 4); the source file widgets/tree.rs is not
under src/. For each sibling list it emits, per node, the left segment
`ancestorSegments ++ connector ++ "#" ++ id` where a non-last ancestor
contributes a vertical-bar segment and a last ancestor a blank segment, the
connector is a branch corner for a non-last sibling and an end corner for a
last sibling, then recurses into the children of the node. A per-path
visited-id set guards against cyclic parent chains (step 4) and the fuel
argument makes the recursion structural. -/
def dfsRender (idOf : α → Nat) (childrenOf : Nat → List α) :
    Nat → List Nat → String → List α → List (String × α)
  | 0, _, _, _ => []
  | fuel + 1, path, pre, siblings =>
    listFlat ((enumWith 0 siblings).map (fun p =>
      let isLast := p.1 = siblings.length - 1
      let seg := pre ++ (if isLast then "└─" else "├─") ++ "#" ++ Nat.repr (idOf p.2)
      let below :=
        if path.contains (idOf p.2) then []
        else
          dfsRender idOf childrenOf fuel (idOf p.2 :: path)
            (pre ++ (if isLast then "  " else "│ ")) (childrenOf (idOf p.2))
      (seg, p.2) :: below))

/-- Pads a string with spaces on the right up to the given column width. -/
def padTo (w : Nat) (s : String) : String :=
  s ++ String.mk (List.replicate (w - s.length) ' ')

/-- Modelled from the spec: widgets::tree::tree_list_widget, the
ForestRenderer of spec section 4.3 (its source file is not under src/).
Roots are the nodes with no parent or with a parent id absent from the
snapshot (step 1); roots and each sibling list are ordered ascending by id
(step 2); the traversal is `dfsRender` (steps 3 and 4); when the secondary
field is requested, every left segment is padded to one column past the
maximum left-segment width over the whole output before the secondary field
is appended (step 5). Returns one (label, node) pair per rendered node in
pre-order. -/
def treeListWidget (idOf : α → Nat) (pidOf : α → Option Nat) (secOf : α → String)
    (nodes : List α) (withSec : Bool) : List (String × α) :=
  let ids := nodes.map idOf
  let roots := sortByKey idOf (nodes.filter (fun n =>
    match pidOf n with
    | none => true
    | some p => !(ids.contains p)))
  let childrenOf := fun p => sortByKey idOf (nodes.filter (fun n => pidOf n == some p))
  let rendered := dfsRender idOf childrenOf (nodes.length + 1) [] "" roots
  if withSec then
    let maxW := (rendered.map (fun r => r.1.length)).foldr Nat.max 0
    rendered.map (fun r => (padTo (maxW + 1) r.1 ++ secOf r.2, r.2))
  else
    rendered

/-- The instantiation used by ZMXTab::replace_fiber_dump:
`tree::tree_list_widget(dump, true)` with the status as secondary field. -/
def fiberWidget (dump : List Fiber) : List (String × Fiber) :=
  treeListWidget (fun f => f.id) (fun f => f.parent_id) (fun f => f.status.render) dump true

/-- The instantiation used by AkkaActorTreeTab::update_actor_tree:
`tree::tree_list_widget(actors, false)`. -/
def actorWidget (actors : List ActorTreeNode) : List (String × ActorTreeNode) :=
  treeListWidget (fun a => a.id) (fun a => a.parent_id) (fun a => a.name) actors false

/-- Number of lines of a string as counted by Rust `str::lines` (used via
`s.lines().collect().len()` in `prepare_dump`): lines are separated by a
newline character and a final trailing newline does not open a new line;
the empty string has zero lines. -/
def splitLinesAux : List Char → List (List Char)
  | [] => [[]]
  | c :: cs =>
    match splitLinesAux cs with
    | [] => [[]]
    | p :: ps => if c = '\n' then [] :: p :: ps else (c :: p) :: ps

/-- Line count of a string, Rust `str::lines().count()` semantics. -/
def countLines (s : String) : Nat :=
  let parts := splitLinesAux s.data
  parts.length - (match parts.getLast? with
    | some [] => 1
    | _ => 0)

/-- ZMXTab from app.rs; `fiber_counts` is the VecDeque as a list in arrival
order, `scroll` and the stored line count are the u16 fields as Nat. -/
structure ZMXTab where
  fibers : StatefulList String
  selected_fiber_dump : String × Nat
  fiber_dump_all : List String
  scroll : Nat
  fiber_counts : List FiberCount
deriving DecidableEq

def ZMXTab.MAX_FIBER_COUNT_MEASURES : Nat := 100

/-- ZMXTab::new. -/
def ZMXTab.new : ZMXTab :=
  ⟨StatefulList.with_items [], ("", 1), [], 0, []⟩

/-- ZMXTab::append_fiber_count. -/
def ZMXTab.append_fiber_count (t : ZMXTab) (c : FiberCount) : ZMXTab :=
  { t with fiber_counts := boundedAppend ZMXTab.MAX_FIBER_COUNT_MEASURES t.fiber_counts c }

/-- ZMXTab::prepare_dump: the pair of the dump text and its line count; the
line count is a `usize` cast to `u16` with `as`, which truncates. -/
def ZMXTab.prepare_dump (s : String) : String × Nat :=
  (s, countLines s % 2 ^ 16)

/-- ZMXTab::on_fiber_change: `self.fiber_dump_all[n]` with
`n = selected().unwrap_or(0)` is an out-of-bounds panic (`none`) when the
dump array is shorter. -/
def ZMXTab.on_fiber_change (t : ZMXTab) : Option ZMXTab :=
  match t.fiber_dump_all[t.fibers.state.selected.getD 0]? with
  | none => none
  | some d => some { t with selected_fiber_dump := ZMXTab.prepare_dump d, scroll := 0 }

/-- ZMXTab::replace_fiber_dump: renders the snapshot, installs the labels as
the new items, selects index 0, then reads `fib_dumps[0]` — an out-of-bounds
panic (`none`) when the rendered sequence is empty (the Rust code has by
then already mutated the labels and selection; the Option model collapses
that partial mutation into the panic) — and finally installs the aligned
dump array. -/
def ZMXTab.replace_fiber_dump (t : ZMXTab) (dump : List Fiber) : Option ZMXTab :=
  match (fiberWidget dump).map (fun f => f.2.dump) with
  | [] => none
  | d0 :: rest =>
    some { t with
      fibers := ⟨⟨some 0⟩, (fiberWidget dump).map (fun f => f.1)⟩,
      selected_fiber_dump := ZMXTab.prepare_dump d0,
      fiber_dump_all := d0 :: rest }

/-- ZMXTab::scroll_up: decrement, floored at 0. -/
def ZMXTab.scroll_up (t : ZMXTab) : ZMXTab :=
  if 0 < t.scroll then { t with scroll := t.scroll - 1 } else t

/-- ZMXTab::scroll_down: increment while below the stored line count (so the
u16 increment cannot overflow). -/
def ZMXTab.scroll_down (t : ZMXTab) : ZMXTab :=
  if t.scroll < t.selected_fiber_dump.2 then { t with scroll := t.scroll + 1 } else t

/-- One iteration of the counting loop in ZMXTab::append_fiber_dump_for_counts. -/
def tallyStep (c : FiberCount) (f : Fiber) : FiberCount :=
  match f.status with
  | .Done => { c with done := c.done + 1 }
  | .Finishing => { c with finishing := c.finishing + 1 }
  | .Running => { c with running := c.running + 1 }
  | .Suspended => { c with suspended := c.suspended + 1 }

/-- The status tally computed by ZMXTab::append_fiber_dump_for_counts by
folding over the snapshot, starting from all-zero counts. -/
def tallyOf (dump : List Fiber) : FiberCount :=
  dump.foldl tallyStep ⟨0, 0, 0, 0⟩

/-- ZMXTab::append_fiber_dump_for_counts. -/
def ZMXTab.append_fiber_dump_for_counts (t : ZMXTab) (dump : List Fiber) : ZMXTab :=
  t.append_fiber_count (tallyOf dump)

/-- ZMXTab::select_prev_fiber: guarded by the emptiness check in the source. -/
def ZMXTab.select_prev_fiber (t : ZMXTab) : Option ZMXTab :=
  if t.fibers.items.isEmpty then some t
  else (t.fibers.previous).bind (fun fs => ZMXTab.on_fiber_change { t with fibers := fs })

/-- ZMXTab::select_next_fiber: guarded by the emptiness check in the source. -/
def ZMXTab.select_next_fiber (t : ZMXTab) : Option ZMXTab :=
  if t.fibers.items.isEmpty then some t
  else (t.fibers.next).bind (fun fs => ZMXTab.on_fiber_change { t with fibers := fs })

/-- SlickTab from app.rs. -/
structure SlickTab where
  has_hikari : Bool
  slick_metrics : List SlickMetrics
  slick_config : SlickConfig
  hikari_metrics : List HikariMetrics
deriving DecidableEq

def SlickTab.MAX_SLICK_MEASURES : Nat := 25

def SlickTab.MAX_HIKARI_MEASURES : Nat := 100

/-- SlickTab::new. -/
def SlickTab.new : SlickTab :=
  ⟨false, [], ⟨0, 0⟩, []⟩

/-- SlickTab::replace_slick_config. -/
def SlickTab.replace_slick_config (t : SlickTab) (m : SlickConfig) : SlickTab :=
  { t with slick_config := m }

/-- SlickTab::append_slick_metrics. -/
def SlickTab.append_slick_metrics (t : SlickTab) (m : SlickMetrics) : SlickTab :=
  { t with slick_metrics := boundedAppend SlickTab.MAX_SLICK_MEASURES t.slick_metrics m }

/-- SlickTab::append_hikari_metrics. -/
def SlickTab.append_hikari_metrics (t : SlickTab) (m : HikariMetrics) : SlickTab :=
  { t with hikari_metrics := boundedAppend SlickTab.MAX_HIKARI_MEASURES t.hikari_metrics m }

/-- AkkaActorTreeTab from app.rs. -/
structure AkkaActorTreeTab where
  actors : StatefulList String
  actor_counts : List Nat
deriving DecidableEq

def AkkaActorTreeTab.MAX_ACTOR_COUNT_MEASURES : Nat := 25

/-- AkkaActorTreeTab::new. -/
def AkkaActorTreeTab.new : AkkaActorTreeTab :=
  ⟨StatefulList.with_items [], []⟩

/-- AkkaActorTreeTab::update_actor_tree: clears and refills the item list
from the rendered labels; the selection state is not touched. -/
def AkkaActorTreeTab.update_actor_tree (t : AkkaActorTreeTab)
    (actors : List ActorTreeNode) : AkkaActorTreeTab :=
  { t with actors := { t.actors with items := (actorWidget actors).map (fun p => p.1) } }

/-- AkkaActorTreeTab::select_prev_actor: forwards to the list with no
emptiness guard. -/
def AkkaActorTreeTab.select_prev_actor (t : AkkaActorTreeTab) : Option AkkaActorTreeTab :=
  (t.actors.previous).map (fun a => { t with actors := a })

/-- AkkaActorTreeTab::select_next_actor: forwards to the list with no
emptiness guard. -/
def AkkaActorTreeTab.select_next_actor (t : AkkaActorTreeTab) : Option AkkaActorTreeTab :=
  (t.actors.next).map (fun a => { t with actors := a })

/-- AkkaActorTreeTab::append_actor_count. -/
def AkkaActorTreeTab.append_actor_count (t : AkkaActorTreeTab) (c : Nat) : AkkaActorTreeTab :=
  { t with actor_counts := boundedAppend AkkaActorTreeTab.MAX_ACTOR_COUNT_MEASURES t.actor_counts c }

/-- Tab kind tag. -/
inductive TabKind
  | ZMX
  | Slick
  | AkkaActorTree
deriving DecidableEq

/-- Tab descriptor. -/
structure Tab where
  kind : TabKind
  title : String
deriving DecidableEq

/-- TabsState from app.rs. -/
structure TabsState where
  tabs : List Tab
  index : Nat
deriving DecidableEq

/-- TabsState::new. -/
def TabsState.new (tabs : List Tab) : TabsState :=
  ⟨tabs, 0⟩

/-- TabsState::next: `(index + 1) % tabs.len()` — remainder by zero (a panic
in every build mode, modelled as `none`) when no tabs are configured. -/
def TabsState.next (t : TabsState) : Option TabsState :=
  if t.tabs.length = 0 then none
  else some { t with index := (t.index + 1) % t.tabs.length }

/-- TabsState::previous: when the index is 0 the code evaluates
`tabs.len() - 1`, a usize underflow (panic in checked builds, modelled as
`none`) when no tabs are configured. -/
def TabsState.previous (t : TabsState) : Option TabsState :=
  if 0 < t.index then some { t with index := t.index - 1 }
  else if t.tabs.length = 0 then none
  else some { t with index := t.tabs.length - 1 }

/-- TabsState::current: `&self.tabs[self.index]`, an out-of-bounds panic
(`none`) when the index is not within the tab list. -/
def TabsState.current (t : TabsState) : Option Tab :=
  t.tabs[t.index]?

/-- TabsState::titles. -/
def TabsState.titles (t : TabsState) : List String :=
  t.tabs.map (fun x => x.title)

/-- App from app.rs. -/
structure App where
  title : String
  should_quit : Bool
  exit_reason : Option String
  tabs : TabsState
  zmx : Option ZMXTab
  slick : Option SlickTab
  actor_tree : Option AkkaActorTreeTab
deriving DecidableEq

/-- App::new: one tab per present configuration input, in the fixed order
ZMX, Slick, AkkaActorTree; the per-kind optional tab state is present
exactly when the corresponding input is. -/
def App.new (title : String) (zio_zmx_addr : Option String)
    (jmx : Option JMXConnectionSettings) (akka : Option AkkaSettings) : App :=
  { title := title
    should_quit := false
    exit_reason := none
    tabs := TabsState.new
      ((match zio_zmx_addr with
        | some _ => [⟨TabKind.ZMX, "ZIO"⟩]
        | none => []) ++
       (match jmx with
        | some _ => [⟨TabKind.Slick, "Slick"⟩]
        | none => []) ++
       (match akka with
        | some _ => [⟨TabKind.AkkaActorTree, "Akka"⟩]
        | none => []))
    zmx := zio_zmx_addr.map (fun _ => ZMXTab.new)
    slick := jmx.map (fun _ => SlickTab.new)
    actor_tree := akka.map (fun _ => AkkaActorTreeTab.new) }

/-- App::on_up: dispatch on the current tab kind; `tabs.current()` panics
when the tab list is empty, and the `unwrap()` on the per-kind field panics
when that field is absent (both modelled as `none`). -/
def App.on_up (s : App) : Option App :=
  match s.tabs.current with
  | none => none
  | some tab =>
    match tab.kind with
    | TabKind.ZMX =>
      match s.zmx with
      | none => none
      | some z => (z.select_prev_fiber).map (fun z2 => { s with zmx := some z2 })
    | TabKind.Slick => some s
    | TabKind.AkkaActorTree =>
      match s.actor_tree with
      | none => none
      | some a => (a.select_prev_actor).map (fun a2 => { s with actor_tree := some a2 })

/-- App::on_down: same dispatch as on_up with the next-direction methods. -/
def App.on_down (s : App) : Option App :=
  match s.tabs.current with
  | none => none
  | some tab =>
    match tab.kind with
    | TabKind.ZMX =>
      match s.zmx with
      | none => none
      | some z => (z.select_next_fiber).map (fun z2 => { s with zmx := some z2 })
    | TabKind.Slick => some s
    | TabKind.AkkaActorTree =>
      match s.actor_tree with
      | none => none
      | some a => (a.select_next_actor).map (fun a2 => { s with actor_tree := some a2 })

/-- App::on_right. -/
def App.on_right (s : App) : Option App :=
  (s.tabs.next).map (fun ts => { s with tabs := ts })

/-- App::on_left. -/
def App.on_left (s : App) : Option App :=
  (s.tabs.previous).map (fun ts => { s with tabs := ts })

/-- App::quit. -/
def App.quit (s : App) (error : Option String) : App :=
  { s with should_quit := true, exit_reason := error }

/-- App::on_key. -/
def App.on_key (s : App) (c : Char) : App :=
  if c = 'q' then s.quit none else s

/-- App::on_page_up. -/
def App.on_page_up (s : App) : Option App :=
  match s.tabs.current with
  | none => none
  | some tab =>
    match tab.kind with
    | TabKind.ZMX =>
      match s.zmx with
      | none => none
      | some z => some { s with zmx := some z.scroll_up }
    | TabKind.Slick => some s
    | TabKind.AkkaActorTree => some s

/-- App::on_page_down. -/
def App.on_page_down (s : App) : Option App :=
  match s.tabs.current with
  | none => none
  | some tab =>
    match tab.kind with
    | TabKind.ZMX =>
      match s.zmx with
      | none => none
      | some z => some { s with zmx := some z.scroll_down }
    | TabKind.Slick => some s
    | TabKind.AkkaActorTree => some s

/-- The App consistency invariant: a tab of a given kind is present in the
tab list exactly when the corresponding optional per-kind field is present. -/
def TabFieldInv (s : App) : Prop :=
  ((∃ tab ∈ s.tabs.tabs, tab.kind = TabKind.ZMX) ↔ s.zmx.isSome = true)
  ∧ ((∃ tab ∈ s.tabs.tabs, tab.kind = TabKind.Slick) ↔ s.slick.isSome = true)
  ∧ ((∃ tab ∈ s.tabs.tabs, tab.kind = TabKind.AkkaActorTree) ↔ s.actor_tree.isSome = true)

/-- Iterates a fallible operation n times, propagating a panic (`none`). -/
def iterOpt (f : α → Option α) : Nat → α → Option α
  | 0, a => some a
  | n + 1, a => (f a).bind (iterOpt f n)

/-- One step of the bounded append preserves the buffer being a suffix of
everything appended so far, of length `min (appends so far) (capacity + 1)`. -/
theorem boundedAppend_step {α : Type} (N : Nat) {q ys : List α} (c : α)
    (hlen : q.length = min ys.length (N + 1)) (hsuf : q <:+ ys) :
    (boundedAppend N q c).length = min (ys.length + 1) (N + 1) ∧
      boundedAppend N q c <:+ ys ++ [c] := by
  constructor
  · simp only [boundedAppend]
    split
    · simp only [List.length_append, List.length_tail, List.length_cons,
        List.length_nil]
      omega
    · simp only [List.length_append, List.length_cons, List.length_nil]
      omega
  · obtain ⟨u, hu⟩ := hsuf
    simp only [boundedAppend]
    split
    · rcases q with _ | ⟨a, q2⟩
      · exact ⟨ys, by simp⟩
      · refine ⟨u ++ [a], ?_⟩
        have h2 : u ++ [a] ++ q2 = ys := by
          simpa [List.append_assoc] using hu
        rw [← h2]
        simp [List.append_assoc]
    · exact ⟨u, by rw [← List.append_assoc, hu]⟩

/-- After any sequence of appends from the empty buffer, the buffer is a
suffix of the appended sequence of length `min (appends) (capacity + 1)`. -/
theorem histAfter_spec {α : Type} (N : Nat) (xs : List α) :
    (histAfter N xs).length = min xs.length (N + 1) ∧ histAfter N xs <:+ xs := by
  induction xs using List.reverseRecOn with
  | nil => simp [histAfter]
  | append_singleton ys c ih =>
    have hstep : histAfter N (ys ++ [c]) = boundedAppend N (histAfter N ys) c := by
      simp [histAfter, List.foldl_append]
    rw [hstep, List.length_append]
    exact boundedAppend_step N c ih.1 ih.2

set_option maxRecDepth 4000 in
/-- C1 counterexample: appending 102 tallies to the fiber-count buffer of
capacity constant 100 leaves 101 elements, not `min 102 100 = 100`: the code
evicts only once the length already exceeds the constant, so the steady
state is one more than the claimed capacity. -/
theorem C1_counterexample :
    ((List.replicate 102 (⟨0, 0, 0, 0⟩ : FiberCount)).foldl
        ZMXTab.append_fiber_count ZMXTab.new).fiber_counts.length ≠ min 102 100 := by
  decide

/-- C1 (amended): each of the four history buffers appends through the same
bounded-append shape with its constant (100, 25, 100, 25), and for every
capacity N and append sequence the buffer after k appends from empty has
length `min k (N + 1)` and holds exactly the last `min k (N + 1)` appended
values in arrival order (it is a suffix of the appended sequence); in
particular the length never exceeds N + 1 (not N, as originally claimed). -/
theorem C1_bounded_history :
    (∀ (t : ZMXTab) (c : FiberCount),
      (t.append_fiber_count c).fiber_counts = boundedAppend 100 t.fiber_counts c)
  ∧ (∀ (t : SlickTab) (m : SlickMetrics),
      (t.append_slick_metrics m).slick_metrics = boundedAppend 25 t.slick_metrics m)
  ∧ (∀ (t : SlickTab) (m : HikariMetrics),
      (t.append_hikari_metrics m).hikari_metrics = boundedAppend 100 t.hikari_metrics m)
  ∧ (∀ (t : AkkaActorTreeTab) (c : Nat),
      (t.append_actor_count c).actor_counts = boundedAppend 25 t.actor_counts c)
  ∧ (∀ (α : Type) (N : Nat) (xs : List α),
      (histAfter N xs).length = min xs.length (N + 1) ∧ histAfter N xs <:+ xs) :=
  ⟨fun _ _ => rfl, fun _ _ => rfl, fun _ _ => rfl, fun _ _ => rfl,
    fun _ N xs => histAfter_spec N xs⟩

/-- C2: evaluation of the code at the failing inputs. On the empty list with
no selection, next() and previous() both set the selection to index 0
instead of leaving it absent (so select_prev_actor on a fresh empty actor
tab yields a present selection on an empty list), and a second previous()
from that state evaluates `items.len() - 1` on length 0, a usize underflow
panic. -/
theorem C2_failing_input_eval :
    (StatefulList.next (StatefulList.with_items ([] : List String))
        = some ⟨⟨some 0⟩, []⟩)
  ∧ (StatefulList.previous (StatefulList.with_items ([] : List String))
        = some ⟨⟨some 0⟩, []⟩)
  ∧ (AkkaActorTreeTab.select_prev_actor AkkaActorTreeTab.new
        = some ⟨⟨⟨some 0⟩, []⟩, []⟩)
  ∧ (AkkaActorTreeTab.select_prev_actor ⟨⟨⟨some 0⟩, []⟩, []⟩ = none)
  ∧ (some 0 ≠ (none : Option Nat)) :=
  ⟨rfl, rfl, rfl, rfl, by decide⟩

/-- C5: evaluation of the code at the failing input. With zero tabs
configured, next() computes `(index + 1) % 0`, a remainder-by-zero panic,
and previous() computes `0 - 1` on usize, an underflow panic; neither is a
guarded no-op. -/
theorem C5_failing_input_eval :
    TabsState.next ⟨[], 0⟩ = none ∧ TabsState.previous ⟨[], 0⟩ = none :=
  ⟨rfl, rfl⟩

/-- C6: on the three-fiber snapshot of the source test, replace_fiber_dump
produces exactly the expected labels, the aligned dump array
["1", "2", "4"], and selection index 0 (starting tab as in the test). -/
theorem C6_concrete_fiber_render :
    ZMXTab.replace_fiber_dump ⟨⟨⟨none⟩, ["Fiber #1"]⟩, ("", 0), [], 0, []⟩
      [⟨1, none, FiberStatus.Running, "1"⟩, ⟨2, some 1, FiberStatus.Suspended, "2"⟩,
        ⟨4, none, FiberStatus.Done, "4"⟩]
    = some ⟨⟨⟨some 0⟩, ["├─#1   Running", "│ └─#2 Suspended", "└─#4   Done"]⟩,
        ("1", 1), ["1", "2", "4"], 0, []⟩ := by
  rfl

/-- C3 counterexample: update_actor_tree with a non-empty incoming snapshot
leaves a stale selection (index 5) in place instead of resetting it to
index 0. -/
theorem C3_counterexample :
    ((AkkaActorTreeTab.update_actor_tree ⟨⟨⟨some 5⟩, ["a"]⟩, []⟩
        [⟨1, none, "x"⟩]).actors.state.selected = some 5)
  ∧ ((AkkaActorTreeTab.update_actor_tree ⟨⟨⟨some 5⟩, ["a"]⟩, []⟩
        [⟨1, none, "x"⟩]).actors.items ≠ [])
  ∧ (some 5 ≠ (some 0 : Option Nat)) :=
  ⟨rfl, by decide, by decide⟩

/-- C3 (amended): replace_fiber_dump swaps the full item sequence and the
aligned dump array and resets the selection to index 0 when the rendered
sequence is non-empty, but panics (out-of-bounds read of the first dump)
when it is empty; update_actor_tree swaps the item sequence and leaves the
selection state untouched (no reset, no clear) and never panics. -/
theorem C3_replace_swap :
    (∀ (t : ZMXTab) (dump : List Fiber) (d0 : String) (rest : List String),
      (fiberWidget dump).map (fun f => f.2.dump) = d0 :: rest →
      ZMXTab.replace_fiber_dump t dump = some { t with
        fibers := ⟨⟨some 0⟩, (fiberWidget dump).map (fun f => f.1)⟩,
        selected_fiber_dump := ZMXTab.prepare_dump d0,
        fiber_dump_all := d0 :: rest })
  ∧ (∀ (t : ZMXTab) (dump : List Fiber),
      (fiberWidget dump).map (fun f => f.2.dump) = [] →
      ZMXTab.replace_fiber_dump t dump = none)
  ∧ (∀ (t : AkkaActorTreeTab) (actors : List ActorTreeNode),
      AkkaActorTreeTab.update_actor_tree t actors =
        { t with actors := ⟨t.actors.state, (actorWidget actors).map (fun p => p.1)⟩ }) := by
  refine ⟨?_, ?_, fun t actors => rfl⟩
  · intro t dump d0 rest h
    unfold ZMXTab.replace_fiber_dump
    rw [h]
  · intro t dump h
    unfold ZMXTab.replace_fiber_dump
    rw [h]

/-- C3 witness: the amended statement evaluated on a one-fiber snapshot and
on the empty snapshot. -/
theorem C3_witness :
    (ZMXTab.replace_fiber_dump ZMXTab.new [⟨1, none, FiberStatus.Running, "1"⟩]
      = some { ZMXTab.new with
          fibers := ⟨⟨some 0⟩,
            (fiberWidget [⟨1, none, FiberStatus.Running, "1"⟩]).map (fun f => f.1)⟩,
          selected_fiber_dump := ZMXTab.prepare_dump "1",
          fiber_dump_all := ["1"] })
  ∧ ZMXTab.replace_fiber_dump ZMXTab.new [] = none :=
  ⟨C3_replace_swap.1 ZMXTab.new [⟨1, none, FiberStatus.Running, "1"⟩] "1" [] rfl,
    C3_replace_swap.2.1 ZMXTab.new [] rfl⟩

/-- Folding the counting step over a snapshot adds exactly the snapshot
length to the sum of the four counters. -/
theorem tally_fold_sum (dump : List Fiber) : ∀ c : FiberCount,
    (dump.foldl tallyStep c).done + (dump.foldl tallyStep c).suspended +
      (dump.foldl tallyStep c).running + (dump.foldl tallyStep c).finishing
    = c.done + c.suspended + c.running + c.finishing + dump.length := by
  induction dump with
  | nil => intro c; simp
  | cons f fs ih =>
    intro c
    rw [List.foldl_cons, ih]
    cases hs : f.status <;> simp [tallyStep, hs, List.length_cons] <;> omega

/-- C9: append_fiber_dump_for_counts appends exactly the status tally of the
snapshot to the fiber-count history (the new last element is that tally and
the history update is the bounded append); the four counts sum to the
snapshot size; and the call is independent of the tree view — the fibers
list and dump array are untouched, and the history length grows by one
except at over-capacity where the eviction keeps it constant. -/
theorem C9_status_tally :
    ∀ (t : ZMXTab) (dump : List Fiber),
      ((t.append_fiber_dump_for_counts dump).fiber_counts
          = boundedAppend 100 t.fiber_counts (tallyOf dump))
    ∧ ((t.append_fiber_dump_for_counts dump).fiber_counts.getLast? = some (tallyOf dump))
    ∧ ((tallyOf dump).done + (tallyOf dump).suspended + (tallyOf dump).running +
        (tallyOf dump).finishing = dump.length)
    ∧ ((t.append_fiber_dump_for_counts dump).fibers = t.fibers)
    ∧ ((t.append_fiber_dump_for_counts dump).fiber_dump_all = t.fiber_dump_all)
    ∧ ((t.append_fiber_dump_for_counts dump).fiber_counts.length
          = if 100 < t.fiber_counts.length then t.fiber_counts.length
            else t.fiber_counts.length + 1) := by
  intro t dump
  refine ⟨rfl, ?_, ?_, rfl, rfl, ?_⟩
  · show (boundedAppend 100 t.fiber_counts (tallyOf dump)).getLast? = some (tallyOf dump)
    simp [boundedAppend]
  · simpa using tally_fold_sum dump ⟨0, 0, 0, 0⟩
  · show (boundedAppend 100 t.fiber_counts (tallyOf dump)).length = _
    simp only [boundedAppend, List.length_append, List.length_cons, List.length_nil]
    split <;> simp [List.length_tail] <;> try omega

/-- One next() step on a non-empty list with a valid selection advances the
selection by one modulo the length. -/
theorem next_step {α : Type} (items : List α) (j : Nat) (hj : j < items.length) :
    StatefulList.next (⟨⟨some j⟩, items⟩ : StatefulList α)
      = some ⟨⟨some ((j + 1) % items.length)⟩, items⟩ := by
  have hne : ¬ items.length = 0 := by omega
  have hidx : (if items.length - 1 ≤ j then 0 else j + 1) = (j + 1) % items.length := by
    by_cases hl : items.length - 1 ≤ j
    · rw [if_pos hl]
      have h1 : j + 1 = items.length := by omega
      rw [h1, Nat.mod_self]
    · rw [if_neg hl, Nat.mod_eq_of_lt (by omega)]
  show (if items.length = 0 then none
      else some (⟨⟨some (if items.length - 1 ≤ j then 0 else j + 1)⟩, items⟩
        : StatefulList α))
    = some ⟨⟨some ((j + 1) % items.length)⟩, items⟩
  rw [if_neg hne, hidx]

/-- One previous() step on a non-empty list with a valid selection moves the
selection back by one modulo the length. -/
theorem prev_step {α : Type} (items : List α) (j : Nat) (hj : j < items.length) :
    StatefulList.previous (⟨⟨some j⟩, items⟩ : StatefulList α)
      = some ⟨⟨some ((j + (items.length - 1)) % items.length)⟩, items⟩ := by
  have hne : ¬ items.length = 0 := by omega
  have hidx : (j + (items.length - 1)) % items.length
      = if j = 0 then items.length - 1 else j - 1 := by
    by_cases h0 : j = 0
    · rw [if_pos h0, h0, Nat.zero_add, Nat.mod_eq_of_lt (by omega)]
    · rw [if_neg h0]
      have h1 : j + (items.length - 1) = (j - 1) + items.length := by omega
      rw [h1, Nat.add_mod_right, Nat.mod_eq_of_lt (by omega)]
  by_cases h0 : j = 0 <;> simp [StatefulList.previous, hidx, h0, hne]

/-- Iterating next() n times from a valid selection lands on the start plus
n, modulo the length. -/
theorem iter_next_sel {α : Type} (items : List α) :
    ∀ (n j : Nat), j < items.length →
      iterOpt StatefulList.next n (⟨⟨some j⟩, items⟩ : StatefulList α)
        = some ⟨⟨some ((j + n) % items.length)⟩, items⟩ := by
  intro n
  induction n with
  | zero => intro j hj; simp [iterOpt, Nat.mod_eq_of_lt hj]
  | succ n ih =>
    intro j hj
    have hL : 0 < items.length := by omega
    have hrw : iterOpt StatefulList.next (n + 1) (⟨⟨some j⟩, items⟩ : StatefulList α)
        = iterOpt StatefulList.next n ⟨⟨some ((j + 1) % items.length)⟩, items⟩ := by
      show (StatefulList.next (⟨⟨some j⟩, items⟩ : StatefulList α)).bind
          (iterOpt StatefulList.next n) = _
      rw [next_step items j hj]
      rfl
    rw [hrw, ih ((j + 1) % items.length) (Nat.mod_lt _ hL)]
    have h2 : ((j + 1) % items.length + n) % items.length
        = (j + (n + 1)) % items.length := by
      rw [Nat.mod_add_mod]
      congr 1
      omega
    rw [h2]

/-- Iterating previous() n times from a valid selection lands on the start
plus n copies of length - 1, modulo the length. -/
theorem iter_prev_sel {α : Type} (items : List α) :
    ∀ (n j : Nat), j < items.length →
      iterOpt StatefulList.previous n (⟨⟨some j⟩, items⟩ : StatefulList α)
        = some ⟨⟨some ((j + n * (items.length - 1)) % items.length)⟩, items⟩ := by
  intro n
  induction n with
  | zero => intro j hj; simp [iterOpt, Nat.mod_eq_of_lt hj]
  | succ n ih =>
    intro j hj
    have hL : 0 < items.length := by omega
    have hrw : iterOpt StatefulList.previous (n + 1) (⟨⟨some j⟩, items⟩ : StatefulList α)
        = iterOpt StatefulList.previous n
            ⟨⟨some ((j + (items.length - 1)) % items.length)⟩, items⟩ := by
      show (StatefulList.previous (⟨⟨some j⟩, items⟩ : StatefulList α)).bind
          (iterOpt StatefulList.previous n) = _
      rw [prev_step items j hj]
      rfl
    rw [hrw, ih ((j + (items.length - 1)) % items.length) (Nat.mod_lt _ hL)]
    have h2 : ((j + (items.length - 1)) % items.length + n * (items.length - 1))
          % items.length
        = (j + (n + 1) * (items.length - 1)) % items.length := by
      rw [Nat.mod_add_mod]
      congr 1
      rw [Nat.succ_mul]
      omega
    rw [h2]

/-- C7: on a list with a present selection that satisfies the selection
invariant (index below the length), applying next() exactly length times
returns to the starting state without panicking, and likewise for
previous(). -/
theorem C7_cyclic_return {α : Type} (s : StatefulList α) (i : Nat)
    (hsel : s.state.selected = some i) (hi : i < s.items.length) :
    iterOpt StatefulList.next s.items.length s = some s
  ∧ iterOpt StatefulList.previous s.items.length s = some s := by
  obtain ⟨⟨sel⟩, items⟩ := s
  simp only at hsel hi ⊢
  subst hsel
  constructor
  · rw [iter_next_sel items items.length i hi]
    simp [Nat.add_mod_right, Nat.mod_eq_of_lt hi]
  · rw [iter_prev_sel items items.length i hi]
    simp [Nat.add_mul_mod_self_left, Nat.mod_eq_of_lt hi]

/-- C7 witness: a three-element list starting at index 1 cycles back after
three next() steps and after three previous() steps. -/
theorem C7_witness :
    iterOpt StatefulList.next
        (⟨⟨some 1⟩, ["a", "b", "c"]⟩ : StatefulList String).items.length
        ⟨⟨some 1⟩, ["a", "b", "c"]⟩
      = some ⟨⟨some 1⟩, ["a", "b", "c"]⟩
  ∧ iterOpt StatefulList.previous
        (⟨⟨some 1⟩, ["a", "b", "c"]⟩ : StatefulList String).items.length
        ⟨⟨some 1⟩, ["a", "b", "c"]⟩
      = some ⟨⟨some 1⟩, ["a", "b", "c"]⟩ :=
  C7_cyclic_return ⟨⟨some 1⟩, ["a", "b", "c"]⟩ 1 rfl (by decide)

/-- C8: scroll_up decrements the offset floored at 0, scroll_down increments
by exactly one while below the stored line count and is otherwise a no-op,
both keep an in-range offset in range, and a successful on_fiber_change
resets the offset to 0 and recomputes the stored pair from the dump at the
newly selected index. -/
theorem C8_scroll_bounds (t : ZMXTab) (hinv : t.scroll ≤ t.selected_fiber_dump.2) :
    ((t.scroll_up).scroll = t.scroll - 1
      ∧ (t.scroll_up).scroll ≤ (t.scroll_up).selected_fiber_dump.2)
  ∧ ((t.scroll_down).scroll
        = (if t.scroll < t.selected_fiber_dump.2 then t.scroll + 1 else t.scroll)
      ∧ (t.scroll_down).scroll ≤ (t.scroll_down).selected_fiber_dump.2)
  ∧ (∀ t2 : ZMXTab, t.on_fiber_change = some t2 →
      t2.scroll = 0
      ∧ ∃ d, t.fiber_dump_all[t.fibers.state.selected.getD 0]? = some d
          ∧ t2.selected_fiber_dump = ZMXTab.prepare_dump d) := by
  have hup : (t.scroll_up).scroll = t.scroll - 1
      ∧ (t.scroll_up).selected_fiber_dump = t.selected_fiber_dump := by
    simp only [ZMXTab.scroll_up]
    split
    · exact ⟨rfl, rfl⟩
    · exact ⟨by omega, rfl⟩
  have hdown : (t.scroll_down).scroll
        = (if t.scroll < t.selected_fiber_dump.2 then t.scroll + 1 else t.scroll)
      ∧ (t.scroll_down).selected_fiber_dump = t.selected_fiber_dump := by
    simp only [ZMXTab.scroll_down]
    split
    · exact ⟨rfl, rfl⟩
    · exact ⟨rfl, rfl⟩
  refine ⟨⟨hup.1, ?_⟩, ⟨hdown.1, ?_⟩, ?_⟩
  · rw [hup.1, hup.2]
    omega
  · rw [hdown.1, hdown.2]
    split <;> omega
  · intro t2 h
    cases hget : t.fiber_dump_all[t.fibers.state.selected.getD 0]? with
    | none => simp [ZMXTab.on_fiber_change, hget] at h
    | some d =>
      simp only [ZMXTab.on_fiber_change, hget] at h
      cases h
      exact ⟨rfl, d, rfl, rfl⟩

/-- C8 witness: the scroll facts evaluated at offset 1 with stored line
count 2. -/
theorem C8_witness :
    (ZMXTab.scroll_up ⟨⟨⟨none⟩, []⟩, ("x", 2), ["x"], 1, []⟩).scroll = 0
  ∧ (ZMXTab.scroll_down ⟨⟨⟨none⟩, []⟩, ("x", 2), ["x"], 1, []⟩).scroll = 2 :=
  ⟨(C8_scroll_bounds ⟨⟨⟨none⟩, []⟩, ("x", 2), ["x"], 1, []⟩ (by decide)).1.1,
    (C8_scroll_bounds ⟨⟨⟨none⟩, []⟩, ("x", 2), ["x"], 1, []⟩ (by decide)).2.1.1⟩

/-- Inversion for Option.map producing a value. -/
theorem option_map_eq {α β : Type} (f : α → β) (o : Option α) (b : β)
    (h : o.map f = some b) : ∃ a, o = some a ∧ b = f a := by
  cases o with
  | none => exact Option.noConfusion h
  | some a =>
    refine ⟨a, rfl, ?_⟩
    cases h
    rfl

/-- A successful on_up only replaces the per-kind payload inside its Option;
the flags, reason, tab list and field presence are unchanged. -/
theorem on_up_shape (s s2 : App) (h : App.on_up s = some s2) :
    s2.should_quit = s.should_quit ∧ s2.exit_reason = s.exit_reason
    ∧ s2.tabs = s.tabs ∧ s2.zmx.isSome = s.zmx.isSome
    ∧ s2.slick = s.slick ∧ s2.actor_tree.isSome = s.actor_tree.isSome := by
  unfold App.on_up at h
  cases hc : s.tabs.current with
  | none =>
    rw [hc] at h
    exact Option.noConfusion (show (none : Option App) = some s2 from h)
  | some tab =>
    rw [hc] at h
    obtain ⟨kind, title⟩ := tab
    cases kind with
    | ZMX =>
      cases hz : s.zmx with
      | none =>
        rw [hz] at h
        exact Option.noConfusion (show (none : Option App) = some s2 from h)
      | some z =>
        rw [hz] at h
        have h2 : (z.select_prev_fiber).map (fun z2 => { s with zmx := some z2 })
            = some s2 := h
        obtain ⟨z2, hz2, rfl⟩ := option_map_eq _ _ _ h2
        exact ⟨rfl, rfl, rfl, rfl, rfl, rfl⟩
    | Slick =>
      have h2 : some s = some s2 := h
      cases h2
      exact ⟨rfl, rfl, rfl, rfl, rfl, rfl⟩
    | AkkaActorTree =>
      cases ha : s.actor_tree with
      | none =>
        rw [ha] at h
        exact Option.noConfusion (show (none : Option App) = some s2 from h)
      | some a =>
        rw [ha] at h
        have h2 : (a.select_prev_actor).map (fun a2 => { s with actor_tree := some a2 })
            = some s2 := h
        obtain ⟨a2, ha2, rfl⟩ := option_map_eq _ _ _ h2
        exact ⟨rfl, rfl, rfl, rfl, rfl, rfl⟩

/-- A successful on_down only replaces the per-kind payload inside its
Option; the flags, reason, tab list and field presence are unchanged. -/
theorem on_down_shape (s s2 : App) (h : App.on_down s = some s2) :
    s2.should_quit = s.should_quit ∧ s2.exit_reason = s.exit_reason
    ∧ s2.tabs = s.tabs ∧ s2.zmx.isSome = s.zmx.isSome
    ∧ s2.slick = s.slick ∧ s2.actor_tree.isSome = s.actor_tree.isSome := by
  unfold App.on_down at h
  cases hc : s.tabs.current with
  | none =>
    rw [hc] at h
    exact Option.noConfusion (show (none : Option App) = some s2 from h)
  | some tab =>
    rw [hc] at h
    obtain ⟨kind, title⟩ := tab
    cases kind with
    | ZMX =>
      cases hz : s.zmx with
      | none =>
        rw [hz] at h
        exact Option.noConfusion (show (none : Option App) = some s2 from h)
      | some z =>
        rw [hz] at h
        have h2 : (z.select_next_fiber).map (fun z2 => { s with zmx := some z2 })
            = some s2 := h
        obtain ⟨z2, hz2, rfl⟩ := option_map_eq _ _ _ h2
        exact ⟨rfl, rfl, rfl, rfl, rfl, rfl⟩
    | Slick =>
      have h2 : some s = some s2 := h
      cases h2
      exact ⟨rfl, rfl, rfl, rfl, rfl, rfl⟩
    | AkkaActorTree =>
      cases ha : s.actor_tree with
      | none =>
        rw [ha] at h
        exact Option.noConfusion (show (none : Option App) = some s2 from h)
      | some a =>
        rw [ha] at h
        have h2 : (a.select_next_actor).map (fun a2 => { s with actor_tree := some a2 })
            = some s2 := h
        obtain ⟨a2, ha2, rfl⟩ := option_map_eq _ _ _ h2
        exact ⟨rfl, rfl, rfl, rfl, rfl, rfl⟩

/-- A successful on_page_up only rewrites the scroll field inside the zmx
payload; everything else, including field presence, is unchanged. -/
theorem on_page_up_shape (s s2 : App) (h : App.on_page_up s = some s2) :
    s2.should_quit = s.should_quit ∧ s2.exit_reason = s.exit_reason
    ∧ s2.tabs = s.tabs ∧ s2.zmx.isSome = s.zmx.isSome
    ∧ s2.slick = s.slick ∧ s2.actor_tree.isSome = s.actor_tree.isSome := by
  unfold App.on_page_up at h
  cases hc : s.tabs.current with
  | none =>
    rw [hc] at h
    exact Option.noConfusion (show (none : Option App) = some s2 from h)
  | some tab =>
    rw [hc] at h
    obtain ⟨kind, title⟩ := tab
    cases kind with
    | ZMX =>
      cases hz : s.zmx with
      | none =>
        rw [hz] at h
        exact Option.noConfusion (show (none : Option App) = some s2 from h)
      | some z =>
        rw [hz] at h
        have h2 : some { s with zmx := some z.scroll_up } = some s2 := h
        cases h2
        exact ⟨rfl, rfl, rfl, rfl, rfl, rfl⟩
    | Slick =>
      have h2 : some s = some s2 := h
      cases h2
      exact ⟨rfl, rfl, rfl, rfl, rfl, rfl⟩
    | AkkaActorTree =>
      have h2 : some s = some s2 := h
      cases h2
      exact ⟨rfl, rfl, rfl, rfl, rfl, rfl⟩

/-- A successful on_page_down only rewrites the scroll field inside the zmx
payload; everything else, including field presence, is unchanged. -/
theorem on_page_down_shape (s s2 : App) (h : App.on_page_down s = some s2) :
    s2.should_quit = s.should_quit ∧ s2.exit_reason = s.exit_reason
    ∧ s2.tabs = s.tabs ∧ s2.zmx.isSome = s.zmx.isSome
    ∧ s2.slick = s.slick ∧ s2.actor_tree.isSome = s.actor_tree.isSome := by
  unfold App.on_page_down at h
  cases hc : s.tabs.current with
  | none =>
    rw [hc] at h
    exact Option.noConfusion (show (none : Option App) = some s2 from h)
  | some tab =>
    rw [hc] at h
    obtain ⟨kind, title⟩ := tab
    cases kind with
    | ZMX =>
      cases hz : s.zmx with
      | none =>
        rw [hz] at h
        exact Option.noConfusion (show (none : Option App) = some s2 from h)
      | some z =>
        rw [hz] at h
        have h2 : some { s with zmx := some z.scroll_down } = some s2 := h
        cases h2
        exact ⟨rfl, rfl, rfl, rfl, rfl, rfl⟩
    | Slick =>
      have h2 : some s = some s2 := h
      cases h2
      exact ⟨rfl, rfl, rfl, rfl, rfl, rfl⟩
    | AkkaActorTree =>
      have h2 : some s = some s2 := h
      cases h2
      exact ⟨rfl, rfl, rfl, rfl, rfl, rfl⟩

/-- A successful on_right only changes the tab index; the tab list, flags,
reason and per-kind fields are unchanged. -/
theorem on_right_shape (s s2 : App) (h : App.on_right s = some s2) :
    s2.should_quit = s.should_quit ∧ s2.exit_reason = s.exit_reason
    ∧ s2.tabs.tabs = s.tabs.tabs ∧ s2.zmx = s.zmx
    ∧ s2.slick = s.slick ∧ s2.actor_tree = s.actor_tree := by
  have h2 : (s.tabs.next).map (fun ts => { s with tabs := ts }) = some s2 := h
  obtain ⟨ts, hts, rfl⟩ := option_map_eq _ _ _ h2
  have htt : ts.tabs = s.tabs.tabs := by
    unfold TabsState.next at hts
    split at hts
    · exact Option.noConfusion hts
    · cases hts
      rfl
  exact ⟨rfl, rfl, htt, rfl, rfl, rfl⟩

/-- A successful on_left only changes the tab index; the tab list, flags,
reason and per-kind fields are unchanged. -/
theorem on_left_shape (s s2 : App) (h : App.on_left s = some s2) :
    s2.should_quit = s.should_quit ∧ s2.exit_reason = s.exit_reason
    ∧ s2.tabs.tabs = s.tabs.tabs ∧ s2.zmx = s.zmx
    ∧ s2.slick = s.slick ∧ s2.actor_tree = s.actor_tree := by
  have h2 : (s.tabs.previous).map (fun ts => { s with tabs := ts }) = some s2 := h
  obtain ⟨ts, hts, rfl⟩ := option_map_eq _ _ _ h2
  have htt : ts.tabs = s.tabs.tabs := by
    unfold TabsState.previous at hts
    split at hts
    · cases hts
      rfl
    · split at hts
      · exact Option.noConfusion hts
      · cases hts
        rfl
  exact ⟨rfl, rfl, htt, rfl, rfl, rfl⟩

/-- C4 counterexample: with a ZIO tab and a Slick tab configured, quitting
and then sending on_right still advances the tab index from 0 to 1, so
mutation entry points are not no-ops once should_quit is set. -/
theorem C4_counterexample :
    (((App.new "t" (some "a") (some JMXConnectionSettings.mk) none).quit none).should_quit
        = true)
  ∧ ((App.on_right ((App.new "t" (some "a") (some JMXConnectionSettings.mk) none).quit
        none)).map (fun x => x.tabs.index) = some 1)
  ∧ (((App.new "t" (some "a") (some JMXConnectionSettings.mk) none).quit none).tabs.index
        = 0)
  ∧ ((1 : Nat) ≠ 0) :=
  ⟨rfl, rfl, rfl, by decide⟩

/-- C4 (amended): quit only sets should_quit and the exit reason; no
mutation entry point consults or clears them, so once should_quit is set it
stays set with the same exit reason across every further on_up, on_down,
on_left, on_right, on_page_up and on_page_down — but those entry points are
not no-ops: they keep mutating the navigation state, and stopping is the
responsibility of the external run loop that polls the flag. -/
theorem C4_quit_sticky (s : App) (hq : s.should_quit = true) :
    (∀ s2, App.on_up s = some s2 → s2.should_quit = true ∧ s2.exit_reason = s.exit_reason)
  ∧ (∀ s2, App.on_down s = some s2 → s2.should_quit = true ∧ s2.exit_reason = s.exit_reason)
  ∧ (∀ s2, App.on_left s = some s2 → s2.should_quit = true ∧ s2.exit_reason = s.exit_reason)
  ∧ (∀ s2, App.on_right s = some s2 → s2.should_quit = true ∧ s2.exit_reason = s.exit_reason)
  ∧ (∀ s2, App.on_page_up s = some s2 →
      s2.should_quit = true ∧ s2.exit_reason = s.exit_reason)
  ∧ (∀ s2, App.on_page_down s = some s2 →
      s2.should_quit = true ∧ s2.exit_reason = s.exit_reason) := by
  refine ⟨?_, ?_, ?_, ?_, ?_, ?_⟩ <;> intro s2 h
  · obtain ⟨hsq, her, -⟩ := on_up_shape s s2 h
    exact ⟨hsq.trans hq, her⟩
  · obtain ⟨hsq, her, -⟩ := on_down_shape s s2 h
    exact ⟨hsq.trans hq, her⟩
  · obtain ⟨hsq, her, -⟩ := on_left_shape s s2 h
    exact ⟨hsq.trans hq, her⟩
  · obtain ⟨hsq, her, -⟩ := on_right_shape s s2 h
    exact ⟨hsq.trans hq, her⟩
  · obtain ⟨hsq, her, -⟩ := on_page_up_shape s s2 h
    exact ⟨hsq.trans hq, her⟩
  · obtain ⟨hsq, her, -⟩ := on_page_down_shape s s2 h
    exact ⟨hsq.trans hq, her⟩

/-- C4 witness: the sticky-flag statement applied to a quit one-tab app, on
which on_up succeeds and returns the same state. -/
theorem C4_witness :
    ((App.new "t" (some "a") none none).quit none).should_quit = true
  ∧ ((App.new "t" (some "a") none none).quit none).exit_reason
      = ((App.new "t" (some "a") none none).quit none).exit_reason :=
  (C4_quit_sticky ((App.new "t" (some "a") none none).quit none) rfl).1
    ((App.new "t" (some "a") none none).quit none) rfl

/-- Transfer of the tab-field invariant along state changes that preserve
the tab list and the presence of each per-kind field. -/
theorem inv_of_fields {s s2 : App} (htabs : s2.tabs.tabs = s.tabs.tabs)
    (hz : s2.zmx.isSome = s.zmx.isSome) (hsl : s2.slick.isSome = s.slick.isSome)
    (ha : s2.actor_tree.isSome = s.actor_tree.isSome) (hinv : TabFieldInv s) :
    TabFieldInv s2 := by
  refine ⟨?_, ?_, ?_⟩
  · rw [htabs, hz]
    exact hinv.1
  · rw [htabs, hsl]
    exact hinv.2.1
  · rw [htabs, ha]
    exact hinv.2.2

/-- C10: App::new establishes that a tab of a kind is present iff the
corresponding optional field is present; under that invariant, whenever the
dispatch reads the current tab the field it unwraps is present (so the
unwrap() calls in on_up, on_down, on_page_up, on_page_down cannot panic);
and every navigation entry point preserves the invariant, so it holds after
every sequence of navigation events applied from construction. -/
theorem C10_tab_field_consistency :
    (∀ (title : String) (z : Option String) (j : Option JMXConnectionSettings)
        (a : Option AkkaSettings), TabFieldInv (App.new title z j a))
  ∧ (∀ (s : App) (tab : Tab), TabFieldInv s → s.tabs.current = some tab →
      (tab.kind = TabKind.ZMX → s.zmx.isSome = true)
      ∧ (tab.kind = TabKind.AkkaActorTree → s.actor_tree.isSome = true))
  ∧ (∀ s s2 : App, TabFieldInv s → App.on_up s = some s2 → TabFieldInv s2)
  ∧ (∀ s s2 : App, TabFieldInv s → App.on_down s = some s2 → TabFieldInv s2)
  ∧ (∀ s s2 : App, TabFieldInv s → App.on_left s = some s2 → TabFieldInv s2)
  ∧ (∀ s s2 : App, TabFieldInv s → App.on_right s = some s2 → TabFieldInv s2)
  ∧ (∀ s s2 : App, TabFieldInv s → App.on_page_up s = some s2 → TabFieldInv s2)
  ∧ (∀ s s2 : App, TabFieldInv s → App.on_page_down s = some s2 → TabFieldInv s2) := by
  refine ⟨?_, ?_, ?_, ?_, ?_, ?_, ?_, ?_⟩
  · intro title z j a
    rcases z with _ | z0 <;> rcases j with _ | j0 <;> rcases a with _ | a0 <;>
      refine ⟨?_, ?_, ?_⟩ <;> simp [App.new, TabsState.new, TabFieldInv]
  · intro s tab hinv hcur
    have hmem : tab ∈ s.tabs.tabs := by
      unfold TabsState.current at hcur
      exact List.getElem?_mem hcur
    constructor
    · intro hk
      exact hinv.1.mp ⟨tab, hmem, hk⟩
    · intro hk
      exact hinv.2.2.mp ⟨tab, hmem, hk⟩
  · intro s s2 hinv h
    obtain ⟨-, -, htabs, hz, hsl, ha⟩ := on_up_shape s s2 h
    exact inv_of_fields (by rw [htabs]) hz (by rw [hsl]) ha hinv
  · intro s s2 hinv h
    obtain ⟨-, -, htabs, hz, hsl, ha⟩ := on_down_shape s s2 h
    exact inv_of_fields (by rw [htabs]) hz (by rw [hsl]) ha hinv
  · intro s s2 hinv h
    obtain ⟨-, -, htabs, hz, hsl, ha⟩ := on_left_shape s s2 h
    exact inv_of_fields htabs (by rw [hz]) (by rw [hsl]) (by rw [ha]) hinv
  · intro s s2 hinv h
    obtain ⟨-, -, htabs, hz, hsl, ha⟩ := on_right_shape s s2 h
    exact inv_of_fields htabs (by rw [hz]) (by rw [hsl]) (by rw [ha]) hinv
  · intro s s2 hinv h
    obtain ⟨-, -, htabs, hz, hsl, ha⟩ := on_page_up_shape s s2 h
    exact inv_of_fields (by rw [htabs]) hz (by rw [hsl]) ha hinv
  · intro s s2 hinv h
    obtain ⟨-, -, htabs, hz, hsl, ha⟩ := on_page_down_shape s s2 h
    exact inv_of_fields (by rw [htabs]) hz (by rw [hsl]) ha hinv

/-- C10 witness: on an app built with only the ZIO source configured, the
active tab is the ZMX tab and the invariant forces its field to be present,
so the unwrap argument is Some. -/
theorem C10_witness :
    (App.new "t" (some "a") none none).zmx.isSome = true :=
  ((C10_tab_field_consistency.2.1 (App.new "t" (some "a") none none)
      ⟨TabKind.ZMX, "ZIO"⟩
      (C10_tab_field_consistency.1 "t" (some "a") none none) rfl).1) rfl

end Panopticon
